import Mathlib

/-!
Verification of the JupyterLab server extension (`jupyterlab/labapp.py`).

This file gives a shallow embedding of the extension discovery and
manifest-merge engine: the `LabHandler.get` request handler (asset-plan
building, config merging) and the `load_jupyter_server_extension`
registration pipeline.  External collaborators that live outside the
source file (`find_labextension`, `validate_labextension_folder`,
`get_labextension_manifest_data_by_name`, `get_labextension_config_python`,
the filesystem, and the server settings) are modelled as explicit
parameters (oracles), so every theorem quantifies over their behaviour.

Python values are modelled as follows: manifest dictionary values become
`MValue` (a bundle dictionary, a string, or `None`); raised exceptions
become `Except PyErr`; config-payload values become `CVal`.  Machine
strings are Lean `String`s compared by code point, as in Python.
-/

/-- Values stored in the merged client config payload (`configData`).
Python allows arbitrary values; booleans, strings and integers cover the
values this program actually stores. -/
inductive CVal
  | bool (b : Bool)
  | str (s : String)
  | num (n : Int)
  deriving DecidableEq, Repr

/-- A Python dict with string keys holding config values, as an ordered
association list (Python dicts preserve insertion order). -/
abbrev ConfigDict := List (String × CVal)

/-- The `entry` slot of a manifest bundle dictionary: the key may be
absent, hold `None`, or hold a string. -/
inductive EntryField
  | absent
  | null
  | str (s : String)
  deriving DecidableEq, Repr

/-- A manifest bundle dictionary `{"entry": ..., "files": [...]}`;
`files = none` models an absent `files` key. -/
structure BundleDict where
  entry : EntryField
  files : Option (List String)
  deriving DecidableEq, Repr

/-- A value of a plugin's manifest-data dictionary: a bundle dictionary,
a string (as stored under `python_module`), or Python `None`. -/
inductive MValue
  | dict (b : BundleDict)
  | str (s : String)
  | pyNone
  deriving DecidableEq, Repr

/-- A plugin's manifest data: a dict from bundle name to `MValue`. -/
abbrev PluginData := List (String × MValue)

/-- The registry built at registration time: plugin name to data. -/
abbrev Registry := List (String × PluginData)

/-- Python dict lookup `d.get(k)` / `d[k]` on an association list. -/
def dictGet {α : Type} (d : List (String × α)) (k : String) : Option α :=
  (d.find? (fun p => p.1 == k)).map (fun p => p.2)

/-- Python `k in d` membership test. -/
def hasKey {α : Type} (d : List (String × α)) (k : String) : Bool :=
  d.any (fun p => p.1 == k)

/-- Python dict assignment `d[k] = v`: replace the value in place when
the key exists, otherwise append the new pair. -/
def dictSet {α : Type} : List (String × α) → String → α → List (String × α)
  | [], k, v => [(k, v)]
  | p :: ps, k, v => if p.1 == k then (k, v) :: ps else p :: dictSet ps k v

/-- Python `d.update(u)`: assign each pair of `u`, in order, into `d`. -/
def dictUpdate (d u : ConfigDict) : ConfigDict :=
  u.foldl (fun a p => dictSet a p.1 p.2) d

/-- Index of the last occurrence of a character in a character list. -/
def lastIdxOf (c : Char) : List Char → Option Nat
  | [] => none
  | a :: as =>
    match lastIdxOf c as with
    | some i => some (i + 1)
    | none => if a == c then some 0 else none

/-- Models the extension part of Python `os.path.splitext`: the suffix
starting at the last dot, provided it comes after the last separator and
after at least one non-dot character of the base name. -/
def splitextExt (s : String) : String :=
  let l := s.toList
  let start := match lastIdxOf '/' l with
    | some j => j + 1
    | none => 0
  match lastIdxOf '.' l with
  | none => ""
  | some d =>
    if start ≤ d && ((l.drop start).take (d - start)).any (fun c => c != '.') then
      String.mk (l.drop d)
    else ""

/-- Strip all leading and trailing occurrences of a character. -/
def stripChar (c : Char) (s : String) : String :=
  String.mk (((s.toList.dropWhile (· == c)).reverse.dropWhile (· == c)).reverse)

/-- Python `"/".join(parts)`. -/
def joinSlash : List String → String
  | [] => ""
  | [s] => s
  | s :: rest => s ++ "/" ++ joinSlash rest

/-- Models the external `url_path_join` helper (`notebook.utils`, imported
as `ujoin`), for the two-piece calls this program makes: strip slashes
from each piece, join the non-empty pieces with `/`, and restore a
leading slash of the first piece and a trailing slash of the last. -/
def ujoin (a b : String) : String :=
  let initial := a.toList.headD ' ' == '/'
  let final := b.toList.getLastD ' ' == '/'
  let mid := joinSlash (([stripChar '/' a, stripChar '/' b]).filter (fun s => s != ""))
  let r := (if initial then "/" else "") ++ mid ++ (if final then "/" else "")
  if r == "//" then "/" else r

/-- Models `os.path.join(a, b)` for a relative second piece. -/
def pathJoin (a b : String) : String := a ++ "/" ++ b

/-- Python code-point comparison of strings, as a lexicographic
comparison of their character lists (`a <= b`). -/
def charListLe : List Char → List Char → Bool
  | [], _ => true
  | _ :: _, [] => false
  | a :: as, b :: bs =>
    if a.toNat < b.toNat then true
    else if b.toNat < a.toNat then false
    else charListLe as bs

/-- Python `a <= b` on strings. -/
def strLe (a b : String) : Bool := charListLe a.toList b.toList

/-- Python `a < b` on strings. -/
def strLt (a b : String) : Bool := strLe a b && a != b

/-- Comparison of registry items by plugin name.  `sorted(d.items())`
compares the name components first, and names in a dict are distinct, so
the name comparison alone decides the order. -/
def keyLe {α : Type} (a b : String × α) : Prop := strLe a.1 b.1 = true

instance {α : Type} : DecidableRel (@keyLe α) := fun _ _ => instDecidableEqBool _ _

/-- Strict version of `keyLe`, used to reason about distinct names. -/
def keyLt {α : Type} (a b : String × α) : Prop := strLe a.1 b.1 = true ∧ a.1 ≠ b.1

/-- Models Python `sorted(d.items())` on an association list with
distinct keys: a sort that is stable and orders by name. -/
def sortPlugins {α : Type} (l : List (String × α)) : List (String × α) :=
  List.insertionSort keyLe l

/-- Python exceptions this code can raise while building the plan. -/
inductive PyErr
  | keyError (k : String)
  | indexError
  | typeError
  deriving DecidableEq, Repr

/-- Python truthiness of the value read by `value.get('entry', None)`. -/
def EntryField.truthy : EntryField → Bool
  | .absent => false
  | .null => false
  | .str s => s != ""

/-- The string held by a truthy `entry` field (`value['entry']`). -/
def EntryField.getStr : EntryField → String
  | .str s => s
  | _ => ""

/-- Python truthiness of a manifest-dictionary value.  A bundle
dictionary is modelled as truthy; the only keys whose truthiness the
code tests hold a string or `None` (the `python_module` slot written by
the registration pipeline). -/
def MValue.truthy : MValue → Bool
  | .dict _ => true
  | .str s => s != ""
  | .pyNone => false

/-- Whether a manifest-dictionary value is a Python dict
(`isinstance(value, dict)`). -/
def MValue.isDict : MValue → Bool
  | .dict _ => true
  | _ => false

/-- The module-global `PREFIX = '/lab'`. -/
def LAB_PATH : String := "/lab"

/-- The module-global `'/labextension'` (the extension URL root). -/
def EXTENSION_PATH : String := "/labextension"

/-- The module-global `BUILT_FILES = os.path.join(HERE, 'build')`; the
install directory `HERE` is an opaque absolute path. -/
def BUILT_FILES : String := "/opt/jupyterlab/build"

/-- The error message written when build artifacts are missing. -/
def errMsg : String :=
  "JupyterLab build artifacts not detected, please see CONTRIBUTING.md for build instructions."

/-- The mutable lists and config dict the handler builds while looping
over the registry. -/
structure LoopState where
  entries : List String
  bundles : List String
  css_files : List String
  configData : ConfigDict
  deriving DecidableEq, Repr

/-- One iteration of `for value in data.values()`: skip non-dict values;
for a truthy `entry`, record the entry point and a bundle URL built from
`value['files'][0]`; then append a CSS URL for every listed file whose
extension is `.css`.  A missing `files` key raises `KeyError`, an empty
`files` list raises `IndexError`, exactly as the Python subscripts do. -/
def processValue (ePre name : String) (st : LoopState) (v : MValue) :
    Except PyErr LoopState :=
  match v with
  | .str _ => .ok st
  | .pyNone => .ok st
  | .dict b =>
    let step1 : Except PyErr LoopState :=
      if b.entry.truthy then
        match b.files with
        | none => .error (.keyError "files")
        | some [] => .error .indexError
        | some (f :: _) =>
          .ok { st with entries := st.entries ++ [b.entry.getStr],
                        bundles := st.bundles ++ [ePre ++ "/" ++ name ++ "/" ++ f] }
      else .ok st
    match step1 with
    | .error e => .error e
    | .ok st1 =>
      match b.files with
      | none => .error (.keyError "files")
      | some files =>
        .ok (files.foldl (fun acc fname =>
          if splitextExt fname == ".css" then
            { acc with css_files := acc.css_files ++ [ePre ++ "/" ++ name ++ "/" ++ fname] }
          else acc) st1)

/-- One iteration of `for (name, data) in sorted(labextensions.items())`:
process every manifest value, then, when `data.get('python_module')` is
truthy, invoke the config provider inside `try`, merging its returned
mapping with `configData.update(value)`; a raised exception is caught
and logged, leaving the state unchanged. -/
def processPlugin (ePre : String) (provider : MValue → Except Unit ConfigDict)
    (st : LoopState) (p : String × PluginData) : Except PyErr LoopState :=
  match (p.2.map Prod.snd).foldlM (processValue ePre p.1) st with
  | .error e => .error e
  | .ok st1 =>
    let pm := (dictGet p.2 "python_module").getD .pyNone
    if pm.truthy then
      match provider pm with
      | .ok value => .ok { st1 with configData := dictUpdate st1.configData value }
      | .error _ => .ok st1
    else .ok st1

/-- Reading `data['main']['entry']` from the core build manifest: a
non-dict value raises `TypeError`, a dict without the key raises
`KeyError`. -/
def mainEntry (v : MValue) : Except PyErr (Option String) :=
  match v with
  | .dict b =>
    match b.entry with
    | .absent => .error (.keyError "entry")
    | .null => .ok none
    | .str s => .ok (some s)
  | .str _ => .error .typeError
  | .pyNone => .error .typeError

/-- The handler settings read from the server (`base_url`,
`mathjax_url`, `settings.get('terminals_available', False)`). -/
structure Settings where
  base_url : String
  mathjax_url : String
  terminals_available : Bool
  deriving DecidableEq, Repr

/-- The template context assembled by a successful `LabHandler.get`
(the `config` dict handed to `lab.html`). -/
structure AssetPlan where
  staticPre : String
  page_title : String
  mathjax_url : String
  jupyterlab_main : Option String
  jupyterlab_css : List String
  jupyterlab_bundles : List String
  plugin_entries : List String
  mathjax_config : String
  jupyterlab_config : ConfigDict
  deriving DecidableEq, Repr

/-- The observable outcome of one `LabHandler.get` request: the error
page for missing build artifacts, an uncaught Python exception, or the
rendered page with its asset plan. -/
inductive GetResult
  | errorPage (msg : String)
  | crash (e : PyErr)
  | page (p : AssetPlan)
  deriving DecidableEq, Repr

/-- Shallow embedding of `LabHandler.get`.  `coreData` is the manifest
returned by `get_labextension_manifest_data_by_folder(BUILT_FILES)`,
`labextensions` the registry stored by `initialize`, `provider` the
external `get_labextension_config_python`, and `isFile` the
`os.path.isfile` oracle. -/
def labGet (s : Settings) (coreData : PluginData) (labextensions : Registry)
    (provider : MValue → Except Unit ConfigDict) (isFile : String → Bool) : GetResult :=
  let sPre := ujoin s.base_url LAB_PATH
  match dictGet coreData "main" with
  | none => .errorPage errMsg
  | some mv =>
    match mainEntry mv with
    | .error e => .crash e
    | .ok main =>
      let bundles := ["loader", "main"].map (fun n => ujoin sPre (n ++ ".bundle.js"))
      let css_files := ["main.css"].foldl (fun acc f =>
        if isFile (pathJoin BUILT_FILES f) then acc ++ [ujoin sPre f] else acc) []
      let ePre := ujoin s.base_url EXTENSION_PATH
      let init : LoopState :=
        { entries := [], bundles := bundles, css_files := css_files,
          configData := [("terminalsAvailable", CVal.bool s.terminals_available)] }
      match (sortPlugins labextensions).foldlM (processPlugin ePre provider) init with
      | .error e => .crash e
      | .ok fin =>
        .page { staticPre := sPre,
                page_title := "JupyterLab Alpha Preview",
                mathjax_url := s.mathjax_url,
                jupyterlab_main := main,
                jupyterlab_css := fin.css_files,
                jupyterlab_bundles := fin.bundles,
                plugin_entries := fin.entries,
                mathjax_config := "TeX-AMS_HTML-full,Safe",
                jupyterlab_config := fin.configData }

/-- One plugin's stanza of the host configuration section:
`{enabled: bool, python_module: optional string}`. -/
structure ExtConfig where
  enabled : Bool
  python_module : Option String
  deriving DecidableEq, Repr

/-- The `MValue` stored by `data['python_module'] = ext_config.get('python_module', None)`. -/
def pmValue : Option String → MValue
  | none => .pyNone
  | some s => .str s

/-- One iteration of the registration loop of
`load_jupyter_server_extension`: keep the plugin only when it is
enabled, `find_labextension` locates a folder,
`validate_labextension_folder` reports no warnings, and
`get_labextension_manifest_data_by_name` returns data; the kept
descriptor is the manifest data with `python_module` written into it. -/
def registerStep
    (find : String → Option String)
    (validate : String → String → List String)
    (readByName : String → Option PluginData)
    (out : Registry) (p : String × ExtConfig) : Registry :=
  if !p.2.enabled then out
  else
    match find p.1 with
    | none => out
    | some folder =>
      match validate p.1 folder with
      | _ :: _ => out
      | [] =>
        match readByName p.1 with
        | none => out
        | some data =>
          dictSet out p.1 (dictSet data "python_module" (pmValue p.2.python_module))

/-- Shallow embedding of the registration pipeline of
`load_jupyter_server_extension`: fold `registerStep` over the
configured plugins, starting from the empty registry `out = dict()`. -/
def registerExtensions
    (find : String → Option String)
    (validate : String → String → List String)
    (readByName : String → Option PluginData)
    (lab_config : List (String × ExtConfig)) : Registry :=
  lab_config.foldl (registerStep find validate readByName) []

/-- Whether one configured plugin passes every step of the registration
pipeline (enabled, located, validated with no warnings, manifest read). -/
def passes (find : String → Option String)
    (validate : String → String → List String)
    (readByName : String → Option PluginData)
    (n : String) (ec : ExtConfig) : Bool :=
  ec.enabled &&
    (match find n with
     | none => false
     | some folder => (validate n folder == []) && (readByName n).isSome)

/-- The entry points contributed by one manifest-dictionary value
(non-dict values are skipped; a truthy `entry` contributes itself). -/
def valueEntries : MValue → List String
  | .dict b => if b.entry.truthy then [b.entry.getStr] else []
  | _ => []

/-- The bundle URLs contributed by one manifest-dictionary value: one
URL `extension-root/name/files[0]` when `entry` is truthy. -/
def valueBundles (ePre name : String) : MValue → List String
  | .dict b =>
    if b.entry.truthy then [ePre ++ "/" ++ name ++ "/" ++ (b.files.getD []).headD ""] else []
  | _ => []

/-- The CSS URLs built from a plugin's declared file list: one URL per
file whose extension is `.css`, in list order. -/
def cssUrls (ePre name : String) (files : List String) : List String :=
  (files.filter (fun f => splitextExt f == ".css")).map
    (fun f => ePre ++ "/" ++ name ++ "/" ++ f)

/-- The CSS URLs contributed by one manifest-dictionary value: one URL
per listed file whose extension is `.css`, in list order. -/
def valueCss (ePre name : String) : MValue → List String
  | .dict b => cssUrls ePre name (b.files.getD [])
  | _ => []

/-- All entry points contributed by one registry item. -/
def pluginEntriesOf (p : String × PluginData) : List String :=
  ((p.2.map Prod.snd).map valueEntries).flatten

/-- All bundle URLs contributed by one registry item. -/
def pluginBundlesOf (ePre : String) (p : String × PluginData) : List String :=
  ((p.2.map Prod.snd).map (valueBundles ePre p.1)).flatten

/-- All CSS URLs contributed by one registry item. -/
def pluginCssOf (ePre : String) (p : String × PluginData) : List String :=
  ((p.2.map Prod.snd).map (valueCss ePre p.1)).flatten

/-- One plugin's effective config contribution: the mapping returned by
a successful provider invocation on a truthy `python_module`, and the
empty contribution otherwise (no module, or a caught exception). -/
def contrib (provider : MValue → Except Unit ConfigDict) (data : PluginData) : ConfigDict :=
  let pm := (dictGet data "python_module").getD .pyNone
  if pm.truthy then
    match provider pm with
    | .ok d => d
    | .error _ => []
  else []

/-- The `static_prefix` URL computed by the handler. -/
def staticPreOf (s : Settings) : String := ujoin s.base_url LAB_PATH

/-- The `extension_prefix` URL computed by the handler. -/
def extPreOf (s : Settings) : String := ujoin s.base_url EXTENSION_PATH

/-- The fixed base bundle list: the loader bundle then the main bundle. -/
def baseBundles (s : Settings) : List String :=
  ["loader", "main"].map (fun n => ujoin (staticPreOf s) (n ++ ".bundle.js"))

/-- The core-build CSS list: each fixed candidate file, kept only when
it exists on disk. -/
def coreCssList (s : Settings) (isFile : String → Bool) : List String :=
  ["main.css"].foldl (fun acc f =>
    if isFile (pathJoin BUILT_FILES f) then acc ++ [ujoin (staticPreOf s) f] else acc) []

/-- All entry points contributed by the registry, in sorted name order. -/
def entriesJoin (r : Registry) : List String :=
  ((sortPlugins r).map pluginEntriesOf).flatten

/-- All plugin bundle URLs, in sorted name order. -/
def bundlesJoin (s : Settings) (r : Registry) : List String :=
  ((sortPlugins r).map (fun q => pluginBundlesOf (extPreOf s) q)).flatten

/-- All plugin CSS URLs, in sorted name order. -/
def cssJoin (s : Settings) (r : Registry) : List String :=
  ((sortPlugins r).map (fun q => pluginCssOf (extPreOf s) q)).flatten

/-- The merged config payload: fold each plugin's contribution, in
sorted name order, over the initial `terminalsAvailable` entry. -/
def configFold (provider : MValue → Except Unit ConfigDict) (r : Registry) (ta : Bool) :
    ConfigDict :=
  (sortPlugins r).foldl (fun acc q => dictUpdate acc (contrib provider q.2))
    [("terminalsAvailable", CVal.bool ta)]

/-- Lookup of the last binding of a key in a mapping (the binding that
survives a `dict.update` of that mapping). -/
def lastGet (u : ConfigDict) (k : String) : Option CVal := dictGet u.reverse k

/-- A provider oracle altered at a single argument. -/
def overrideProvider (P : MValue → Except Unit ConfigDict) (m : MValue)
    (res : Except Unit ConfigDict) : MValue → Except Unit ConfigDict :=
  fun x => if x = m then res else P x

/-- A registry with all non-dict manifest values removed from every
plugin's data. -/
def filterDicts (r : Registry) : Registry :=
  r.map (fun q => (q.1, q.2.filter (fun kv => kv.2.isDict)))

/-- The CSS URL list of a rendered page (empty for other outcomes). -/
def cssOf : GetResult → List String
  | .page p => p.jupyterlab_css
  | _ => []

/-- Concrete server settings used by the witnesses. -/
def sW : Settings := ⟨"/", "/static/mathjax", true⟩

/-- Concrete core build manifest used by the witnesses. -/
def coreW : PluginData := [("main", .dict ⟨.str "main-index", some ["main.bundle.js"]⟩)]

/-- Concrete manifest data for plugin `a` (an entry point, a JS file and
a CSS file, and a config module `ma`). -/
def dataA : PluginData :=
  [("bundleA", .dict ⟨.str "a-entry", some ["a.js", "a.css"]⟩), ("python_module", .str "ma")]

/-- Concrete manifest data for plugin `b` (no entry point, a CSS file,
and a config module `mb`). -/
def dataB : PluginData :=
  [("bundleB", .dict ⟨.null, some ["b.css"]⟩), ("python_module", .str "mb")]

/-- Concrete two-plugin registry, deliberately stored out of name order. -/
def rW : Registry := [("b", dataB), ("a", dataA)]

/-- The registry `rW` with its two items in the other order. -/
def rW2 : Registry := [("a", dataA), ("b", dataB)]

/-- Concrete provider: module `ma` contributes `{x: 1}`, module `mb`
contributes `{x: 2}`, anything else raises. -/
def PW : MValue → Except Unit ConfigDict := fun m =>
  if m = .str "ma" then .ok [("x", .num 1)]
  else if m = .str "mb" then .ok [("x", .num 2)]
  else .error ()

/-- Concrete provider whose invocation for module `mb` raises. -/
def PFail : MValue → Except Unit ConfigDict := fun m =>
  if m = .str "ma" then .ok [("x", .num 1)] else .error ()

/-- Concrete filesystem oracle: only the core `main.css` exists. -/
def fsW : String → Bool := fun s => s == pathJoin BUILT_FILES "main.css"

/-- The page rendered for the concrete witness inputs. -/
def pW : AssetPlan :=
  { staticPre := "/lab",
    page_title := "JupyterLab Alpha Preview",
    mathjax_url := "/static/mathjax",
    jupyterlab_main := some "main-index",
    jupyterlab_css := ["/lab/main.css", "/labextension/a/a.css", "/labextension/b/b.css"],
    jupyterlab_bundles := ["/lab/loader.bundle.js", "/lab/main.bundle.js", "/labextension/a/a.js"],
    plugin_entries := ["a-entry"],
    mathjax_config := "TeX-AMS_HTML-full,Safe",
    jupyterlab_config := [("terminalsAvailable", .bool true), ("x", .num 2)] }

/-- A registry whose single plugin declares a truthy `entry` but an
empty `files` list. -/
def rCrash : Registry := [("p", [("b", .dict ⟨.str "idx", some []⟩)])]

/-- A registry whose single plugin lists the same CSS file twice. -/
def rDup : Registry := [("p", [("b", .dict ⟨.null, some ["a.css", "a.css"]⟩)])]

/-- Concrete registration oracles and configuration used by the
registration witness: the configured plugin is enabled but its folder
is nowhere to be found. -/
def findW : String → Option String := fun _ => none

/-- Registration validator oracle for the witness. -/
def validW : String → String → List String := fun _ _ => []

/-- Registration manifest-reader oracle for the witness. -/
def readW : String → Option PluginData := fun _ => none

/-- Configured plugins for the registration witness. -/
def cfgW : List (String × ExtConfig) := [("p", ⟨true, none⟩)]

/-- Filesystem oracle for the witnesses in which no file exists. -/
def fsN : String → Bool := fun _ => false

/-- The page rendered for the witness inputs under the empty filesystem. -/
def pW2 : AssetPlan :=
  { staticPre := "/lab",
    page_title := "JupyterLab Alpha Preview",
    mathjax_url := "/static/mathjax",
    jupyterlab_main := some "main-index",
    jupyterlab_css := ["/labextension/a/a.css", "/labextension/b/b.css"],
    jupyterlab_bundles := ["/lab/loader.bundle.js", "/lab/main.bundle.js", "/labextension/a/a.js"],
    plugin_entries := ["a-entry"],
    mathjax_config := "TeX-AMS_HTML-full,Safe",
    jupyterlab_config := [("terminalsAvailable", .bool true), ("x", .num 2)] }


theorem charListLe_total : ∀ a b : List Char, charListLe a b = true ∨ charListLe b a = true
  | [], _ => .inl rfl
  | _ :: _, [] => .inr rfl
  | a :: as, b :: bs => by
    simp only [charListLe]
    rcases Nat.lt_trichotomy a.toNat b.toNat with h | h | h
    · left; simp [h]
    · have hab : ¬ a.toNat < b.toNat := by omega
      have hba : ¬ b.toNat < a.toNat := by omega
      rcases charListLe_total as bs with ih | ih
      · left; simp [hab, hba, ih]
      · right; simp [hab, hba, ih]
    · right; simp [h]

theorem charListLe_trans : ∀ a b c : List Char,
    charListLe a b = true → charListLe b c = true → charListLe a c = true
  | [], _, _, _, _ => rfl
  | _ :: _, [], _, h, _ => by simp [charListLe] at h
  | _ :: _, _ :: _, [], _, h => by simp [charListLe] at h
  | a :: as, b :: bs, c :: cs, h1, h2 => by
    simp only [charListLe] at h1 h2 ⊢
    rcases Nat.lt_trichotomy a.toNat b.toNat with hab | hab | hab
    · rcases Nat.lt_trichotomy b.toNat c.toNat with hbc | hbc | hbc
      · simp [show a.toNat < c.toNat by omega]
      · simp [show a.toNat < c.toNat by omega]
      · simp [show ¬ b.toNat < c.toNat by omega, hbc] at h2
    · rcases Nat.lt_trichotomy b.toNat c.toNat with hbc | hbc | hbc
      · simp [show a.toNat < c.toNat by omega]
      · simp only [show ¬ a.toNat < b.toNat by omega, if_false,
          show ¬ b.toNat < a.toNat by omega] at h1
        simp only [show ¬ b.toNat < c.toNat by omega, if_false,
          show ¬ c.toNat < b.toNat by omega] at h2
        simp only [show ¬ a.toNat < c.toNat by omega, if_false,
          show ¬ c.toNat < a.toNat by omega]
        exact charListLe_trans as bs cs h1 h2
      · simp [show ¬ b.toNat < c.toNat by omega, hbc] at h2
    · simp [show ¬ a.toNat < b.toNat by omega, hab] at h1

theorem charListLe_antisymm : ∀ a b : List Char,
    charListLe a b = true → charListLe b a = true → a = b
  | [], [], _, _ => rfl
  | [], _ :: _, _, h => by simp [charListLe] at h
  | _ :: _, [], h, _ => by simp [charListLe] at h
  | a :: as, b :: bs, h1, h2 => by
    simp only [charListLe] at h1 h2
    rcases Nat.lt_trichotomy a.toNat b.toNat with hab | hab | hab
    · simp [show ¬ b.toNat < a.toNat by omega, hab] at h2
    · have hc : a = b := Char.eq_of_val_eq (UInt32.ext hab)
      subst hc
      simp only [show ¬ a.toNat < a.toNat by omega, if_false] at h1 h2
      rw [charListLe_antisymm as bs h1 h2]
    · simp [show ¬ a.toNat < b.toNat by omega, hab] at h1

theorem strLe_antisymm {a b : String} (h1 : strLe a b = true) (h2 : strLe b a = true) :
    a = b := by
  have := charListLe_antisymm a.toList b.toList h1 h2
  exact String.ext this

instance {α : Type} : IsTotal (String × α) (@keyLe α) :=
  ⟨fun a b => charListLe_total a.1.toList b.1.toList⟩

instance {α : Type} : IsTrans (String × α) (@keyLe α) :=
  ⟨fun a b c h1 h2 => charListLe_trans a.1.toList b.1.toList c.1.toList h1 h2⟩

instance {α : Type} : IsAntisymm (String × α) (@keyLt α) :=
  ⟨fun _ _ h1 h2 => absurd (strLe_antisymm h1.1 h2.1) h1.2⟩

theorem sortPlugins_perm {α : Type} (l : List (String × α)) : (sortPlugins l).Perm l :=
  List.perm_insertionSort keyLe l

theorem sortPlugins_sorted {α : Type} (l : List (String × α)) :
    List.Sorted (@keyLe α) (sortPlugins l) :=
  List.sorted_insertionSort keyLe l

theorem sortPlugins_sorted_lt {α : Type} (l : List (String × α))
    (hnd : (l.map Prod.fst).Nodup) :
    List.Sorted (@keyLt α) (sortPlugins l) := by
  have hs := sortPlugins_sorted l
  have hnd' : ((sortPlugins l).map Prod.fst).Nodup :=
    (((sortPlugins_perm l).map Prod.fst).nodup_iff).mpr hnd
  have hpw : List.Pairwise (fun a b : String × α => a.1 ≠ b.1) (sortPlugins l) :=
    List.pairwise_map.mp hnd'
  exact hs.and hpw

theorem sortPlugins_eq_of_perm {α : Type} {l₁ l₂ : List (String × α)}
    (hp : l₁.Perm l₂) (hnd : (l₁.map Prod.fst).Nodup) :
    sortPlugins l₁ = sortPlugins l₂ := by
  refine List.eq_of_perm_of_sorted ?_ (sortPlugins_sorted_lt l₁ hnd) (sortPlugins_sorted_lt l₂ ?_)
  · exact (sortPlugins_perm l₁).trans (hp.trans (sortPlugins_perm l₂).symm)
  · exact ((hp.map Prod.fst).nodup_iff).mp hnd

theorem dictGet_nil {α : Type} (k : String) : dictGet ([] : List (String × α)) k = none := rfl

theorem dictGet_cons {α : Type} (p : String × α) (ps : List (String × α)) (k : String) :
    dictGet (p :: ps) k = if p.1 = k then some p.2 else dictGet ps k := by
  by_cases h : p.1 = k <;> simp [dictGet, List.find?_cons, h]

theorem dictGet_append {α : Type} (l₁ l₂ : List (String × α)) (k : String) :
    dictGet (l₁ ++ l₂) k =
      match dictGet l₁ k with
      | some v => some v
      | none => dictGet l₂ k := by
  induction l₁ with
  | nil => simp [dictGet_nil]
  | cons p ps ih => by_cases h : p.1 = k <;> simp [dictGet_cons, h, ih]

theorem dictGet_dictSet {α : Type} (d : List (String × α)) (k : String) (v : α) (j : String) :
    dictGet (dictSet d k v) j = if j = k then some v else dictGet d j := by
  induction d with
  | nil =>
    simp only [dictSet, dictGet_cons, dictGet_nil]
    by_cases h : j = k
    · simp [h]
    · rw [if_neg (fun h' => h h'.symm), if_neg h]
  | cons p ps ih =>
    simp only [dictSet]
    by_cases hpk : p.1 = k
    · rw [if_pos (by simpa using hpk)]
      by_cases hj : j = k
      · subst hj; rw [dictGet_cons, if_pos rfl, if_pos rfl]
      · rw [dictGet_cons, if_neg (fun h => hj h.symm), if_neg hj, dictGet_cons,
            if_neg (fun h : p.1 = j => hj (hpk.symm.trans h).symm)]
    · rw [if_neg (by simpa using hpk)]
      by_cases hj : j = k
      · subst hj
        rw [dictGet_cons, if_neg (fun h : p.1 = j => hpk h), ih, if_pos rfl, if_pos rfl]
      · by_cases hpj : p.1 = j
        · rw [dictGet_cons, if_pos hpj, if_neg hj, dictGet_cons, if_pos hpj]
        · rw [dictGet_cons, if_neg hpj, ih, if_neg hj, if_neg hj, dictGet_cons, if_neg hpj]

theorem lastGet_cons (x : String × CVal) (u : ConfigDict) (j : String) :
    lastGet (x :: u) j =
      match lastGet u j with
      | some v => some v
      | none => if x.1 = j then some x.2 else none := by
  simp only [lastGet, List.reverse_cons, dictGet_append]
  cases dictGet u.reverse j <;> simp [dictGet_cons, dictGet_nil]

theorem dictGet_dictUpdate (d u : ConfigDict) (j : String) :
    dictGet (dictUpdate d u) j =
      match lastGet u j with
      | some v => some v
      | none => dictGet d j := by
  induction u generalizing d with
  | nil => simp [dictUpdate, lastGet, dictGet_nil]
  | cons x u ih =>
    have h1 : dictUpdate d (x :: u) = dictUpdate (dictSet d x.1 x.2) u := rfl
    rw [h1, ih, lastGet_cons, dictGet_dictSet]
    cases lastGet u j with
    | some v => rfl
    | none =>
      by_cases hj : j = x.1
      · simp [hj]
      · rw [if_neg hj, if_neg (fun h => hj h.symm)]

theorem hasKey_false_dictGet {α : Type} (d : List (String × α)) (k : String)
    (h : hasKey d k = false) : dictGet d k = none := by
  induction d with
  | nil => rfl
  | cons p ps ih =>
    simp only [hasKey, List.any_cons, Bool.or_eq_false_iff] at h
    rw [dictGet_cons, if_neg (by simpa using h.1)]
    exact ih (by simpa [hasKey] using h.2)

theorem hasKey_false_lastGet (u : ConfigDict) (k : String)
    (h : hasKey u k = false) : lastGet u k = none := by
  apply hasKey_false_dictGet
  simpa [hasKey, List.any_reverse] using h

theorem hasKey_dictSet_false {α : Type} (d : List (String × α)) (k : String) (v : α)
    (j : String) (hjk : j ≠ k) (h : hasKey d j = false) :
    hasKey (dictSet d k v) j = false := by
  induction d with
  | nil => simpa [dictSet, hasKey] using fun h' => hjk h'.symm
  | cons p ps ih =>
    simp only [hasKey, List.any_cons, Bool.or_eq_false_iff] at h
    simp only [dictSet, beq_iff_eq]
    by_cases hpk : p.1 = k
    · rw [if_pos hpk]
      simp only [hasKey, List.any_cons, Bool.or_eq_false_iff]
      exact ⟨by simpa using fun h' => hjk h'.symm, h.2⟩
    · rw [if_neg hpk]
      simp only [hasKey, List.any_cons, Bool.or_eq_false_iff]
      exact ⟨h.1, ih h.2⟩

theorem css_foldl (ePre name : String) (files : List String) (st : LoopState) :
    files.foldl (fun acc fname =>
      if splitextExt fname == ".css" then
        { acc with css_files := acc.css_files ++ [ePre ++ "/" ++ name ++ "/" ++ fname] }
      else acc) st
    = { st with css_files := st.css_files ++ cssUrls ePre name files } := by
  induction files generalizing st with
  | nil => simp [cssUrls]
  | cons f fs ih =>
    rw [List.foldl_cons]
    by_cases h : splitextExt f = ".css"
    · rw [if_pos (by simpa using h), ih]
      simp [cssUrls, List.filter_cons, h]
    · rw [if_neg (by simpa using h), ih]
      simp [cssUrls, List.filter_cons, h]

theorem processValue_ok {ePre name : String} {st st' : LoopState} {v : MValue}
    (h : processValue ePre name st v = .ok st') :
    st' = { st with entries := st.entries ++ valueEntries v,
                    bundles := st.bundles ++ valueBundles ePre name v,
                    css_files := st.css_files ++ valueCss ePre name v } := by
  cases v with
  | str s =>
    simp only [processValue, Except.ok.injEq] at h
    simp [← h, valueEntries, valueBundles, valueCss]
  | pyNone =>
    simp only [processValue, Except.ok.injEq] at h
    simp [← h, valueEntries, valueBundles, valueCss]
  | dict b =>
    by_cases ht : b.entry.truthy
    · cases hf : b.files with
      | none =>
        simp only [processValue, hf] at h
        rw [if_pos ht] at h
        simp at h
      | some files =>
        cases files with
        | nil =>
          simp only [processValue, hf] at h
          rw [if_pos ht] at h
          simp at h
        | cons f fs =>
          simp only [processValue, hf] at h
          rw [if_pos ht] at h
          dsimp only at h
          rw [css_foldl] at h
          simp only [Except.ok.injEq] at h
          subst h
          simp [valueEntries, valueBundles, valueCss, ht, hf]
    · cases hf : b.files with
      | none =>
        simp only [processValue, hf] at h
        rw [if_neg ht] at h
        simp at h
      | some files =>
        simp only [processValue, hf] at h
        rw [if_neg ht] at h
        dsimp only at h
        rw [css_foldl] at h
        simp only [Except.ok.injEq] at h
        subst h
        simp [valueEntries, valueBundles, valueCss, ht, hf]

theorem processValues_ok {ePre name : String} {vs : List MValue} :
    ∀ {st st' : LoopState},
    vs.foldlM (processValue ePre name) st = .ok st' →
    st' = { st with entries := st.entries ++ (vs.map valueEntries).flatten,
                    bundles := st.bundles ++ (vs.map (valueBundles ePre name)).flatten,
                    css_files := st.css_files ++ (vs.map (valueCss ePre name)).flatten } := by
  induction vs with
  | nil =>
    intro st st' h
    have h' : Except.ok st = Except.ok st' := h
    cases h'
    simp
  | cons v vs ih =>
    intro st st' h
    rw [List.foldlM_cons] at h
    cases hv : processValue ePre name st v with
    | error e =>
      rw [hv] at h
      exact Except.noConfusion (h : Except.error e = Except.ok st')
    | ok st1 =>
      rw [hv] at h
      have h2 := ih (h : List.foldlM (processValue ePre name) st1 vs = .ok st')
      have h1 := processValue_ok hv
      subst h2
      rw [h1]
      simp [List.append_assoc]

theorem dictUpdate_nil (d : ConfigDict) : dictUpdate d [] = d := rfl

theorem processPlugin_ok {ePre : String} {provider : MValue → Except Unit ConfigDict}
    {st st' : LoopState} {p : String × PluginData}
    (h : processPlugin ePre provider st p = .ok st') :
    st' = { st with entries := st.entries ++ pluginEntriesOf p,
                    bundles := st.bundles ++ pluginBundlesOf ePre p,
                    css_files := st.css_files ++ pluginCssOf ePre p,
                    configData := dictUpdate st.configData (contrib provider p.2) } := by
  unfold processPlugin at h
  cases hv : (p.2.map Prod.snd).foldlM (processValue ePre p.1) st with
  | error e => rw [hv] at h; exact Except.noConfusion h
  | ok st1 =>
    rw [hv] at h
    dsimp only at h
    have h1 := processValues_ok hv
    by_cases hpm : ((dictGet p.2 "python_module").getD MValue.pyNone).truthy
    · rw [if_pos hpm] at h
      cases hc : provider ((dictGet p.2 "python_module").getD MValue.pyNone) with
      | ok value =>
        rw [hc] at h
        cases h
        subst h1
        simp [pluginEntriesOf, pluginBundlesOf, pluginCssOf, contrib, hpm, hc,
          List.append_assoc]
      | error e =>
        rw [hc] at h
        cases h
        subst h1
        simp [pluginEntriesOf, pluginBundlesOf, pluginCssOf, contrib, hpm, hc,
          dictUpdate_nil, List.append_assoc]
    · rw [if_neg hpm] at h
      cases h
      subst h1
      simp [pluginEntriesOf, pluginBundlesOf, pluginCssOf, contrib, hpm,
        dictUpdate_nil, List.append_assoc]

theorem processPlugins_ok {ePre : String} {provider : MValue → Except Unit ConfigDict}
    {l : List (String × PluginData)} :
    ∀ {st st' : LoopState},
    l.foldlM (processPlugin ePre provider) st = .ok st' →
    st' = { st with
      entries := st.entries ++ (l.map pluginEntriesOf).flatten,
      bundles := st.bundles ++ (l.map (fun q => pluginBundlesOf ePre q)).flatten,
      css_files := st.css_files ++ (l.map (fun q => pluginCssOf ePre q)).flatten,
      configData := l.foldl (fun a q => dictUpdate a (contrib provider q.2)) st.configData } := by
  induction l with
  | nil =>
    intro st st' h
    have h' : Except.ok st = Except.ok st' := h
    cases h'
    simp
  | cons q l ih =>
    intro st st' h
    rw [List.foldlM_cons] at h
    cases hq : processPlugin ePre provider st q with
    | error e =>
      rw [hq] at h
      exact Except.noConfusion (h : Except.error e = Except.ok st')
    | ok st1 =>
      rw [hq] at h
      have h2 := ih (h : List.foldlM (processPlugin ePre provider) st1 l = .ok st')
      have h1 := processPlugin_ok hq
      subst h2
      rw [h1]
      simp [List.append_assoc]

theorem labGet_page {s : Settings} {core : PluginData} {r : Registry}
    {provider : MValue → Except Unit ConfigDict} {isFile : String → Bool} {p : AssetPlan}
    (h : labGet s core r provider isFile = .page p) :
    p.jupyterlab_bundles = baseBundles s ++ bundlesJoin s r ∧
    p.jupyterlab_css = coreCssList s isFile ++ cssJoin s r ∧
    p.plugin_entries = entriesJoin r ∧
    p.jupyterlab_config = configFold provider r s.terminals_available := by
  unfold labGet at h
  dsimp only at h
  split at h
  next => exact GetResult.noConfusion h
  next mv hm =>
    split at h
    next e hme => exact GetResult.noConfusion h
    next main hme =>
      split at h
      next e heq => exact GetResult.noConfusion h
      next fin heq =>
        cases h
        have hfin := processPlugins_ok heq
        subst hfin
        refine ⟨?_, ?_, ?_, ?_⟩ <;>
          simp [baseBundles, staticPreOf, extPreOf, coreCssList, bundlesJoin, cssJoin,
            entriesJoin, configFold]

theorem configFold_no_key {provider : MValue → Except Unit ConfigDict} {k : String} :
    ∀ {l : List (String × PluginData)} {acc : ConfigDict},
    (∀ q ∈ l, hasKey (contrib provider q.2) k = false) →
    dictGet (l.foldl (fun a q => dictUpdate a (contrib provider q.2)) acc) k
      = dictGet acc k := by
  intro l
  induction l with
  | nil => intro acc _; rfl
  | cons q l ih =>
    intro acc hall
    rw [List.foldl_cons, ih (fun q' hq' => hall q' (List.mem_cons_of_mem _ hq')),
      dictGet_dictUpdate, hasKey_false_lastGet _ _ (hall q (List.mem_cons_self _ _))]

/-- Claim C1: the config payload is merged iterating plugins in ascending name order
with last-writer-wins per key: when plugins named `na < nb` both contribute key `k`
and no plugin sorting after `nb` contributes `k`, the final config payload holds
`nb`'s value for `k`. -/
theorem claim_C1 {s : Settings} {core : PluginData} {r : Registry}
    {provider : MValue → Except Unit ConfigDict} {isFile : String → Bool} {p : AssetPlan}
    (na nb : String) (da db : PluginData) (k : String) (vb : CVal)
    (h : labGet s core r provider isFile = .page p)
    (hnd : (r.map Prod.fst).Nodup)
    (ha : (na, da) ∈ r) (hb : (nb, db) ∈ r)
    (hab : strLt na nb = true)
    (hcolA : hasKey (contrib provider da) k = true)
    (hcolB : lastGet (contrib provider db) k = some vb)
    (hmax : ∀ q ∈ r, strLt nb q.1 = true → hasKey (contrib provider q.2) k = false) :
    dictGet p.jupyterlab_config k = some vb := by
  have hconf := (labGet_page h).2.2.2
  rw [hconf]
  have hb' : (nb, db) ∈ sortPlugins r := ((sortPlugins_perm r).mem_iff).mpr hb
  obtain ⟨l₁, l₂, hsplit⟩ := List.append_of_mem hb'
  have hsorted := sortPlugins_sorted_lt r hnd
  rw [hsplit] at hsorted
  have hl₂ : ∀ q ∈ l₂, keyLt (nb, db) q := by
    have hp := (List.pairwise_append.mp hsorted).2.1
    exact fun q hq => (List.pairwise_cons.mp hp).1 q hq
  have hall : ∀ q ∈ l₂, hasKey (contrib provider q.2) k = false := by
    intro q hq
    have hq' : q ∈ sortPlugins r := by
      rw [hsplit]
      exact List.mem_append_right _ (List.mem_cons_of_mem _ hq)
    have hqr : q ∈ r := (sortPlugins_perm r).mem_iff.mp hq'
    refine hmax q hqr ?_
    have hk1 : strLe nb q.1 = true := (hl₂ q hq).1
    have hk2 : nb ≠ q.1 := (hl₂ q hq).2
    simp [strLt, hk1, bne_iff_ne.mpr hk2]
  unfold configFold
  rw [hsplit, List.foldl_append, List.foldl_cons, configFold_no_key hall,
    dictGet_dictUpdate, hcolB]

theorem processPlugin_override (ePre : String) (P : MValue → Except Unit ConfigDict)
    (m : MValue) (h : P m = .error ()) (st : LoopState) (q : String × PluginData) :
    processPlugin ePre P st q = processPlugin ePre (overrideProvider P m (.ok [])) st q := by
  unfold processPlugin
  cases (q.2.map Prod.snd).foldlM (processValue ePre q.1) st with
  | error e => rfl
  | ok st1 =>
    dsimp only
    by_cases hpm : ((dictGet q.2 "python_module").getD MValue.pyNone).truthy
    · rw [if_pos hpm, if_pos hpm]
      by_cases hm : (dictGet q.2 "python_module").getD MValue.pyNone = m
      · rw [hm, h]
        unfold overrideProvider
        rw [if_pos rfl]
        rfl
      · unfold overrideProvider
        rw [if_neg hm]
    · rw [if_neg hpm, if_neg hpm]

theorem foldlM_ext {σ α : Type} {f g : σ → α → Except PyErr σ}
    (hfg : ∀ st a, f st a = g st a) :
    ∀ (l : List α) (st : σ), List.foldlM f st l = List.foldlM g st l
  | [], _ => rfl
  | a :: l, st => by
    rw [List.foldlM_cons, List.foldlM_cons, hfg]
    cases g st a with
    | error e => rfl
    | ok st1 =>
      show List.foldlM f st1 l = List.foldlM g st1 l
      exact foldlM_ext hfg l st1

/-- Claim C2: a config-provider invocation that raises is caught and the merge continues:
the request renders exactly as if that module contributed nothing, so every other
plugin's contribution is unaffected. -/
theorem claim_C2 {s : Settings} {core : PluginData} {r : Registry}
    {isFile : String → Bool} {P : MValue → Except Unit ConfigDict} {m : MValue}
    (h : P m = .error ()) :
    labGet s core r P isFile = labGet s core r (overrideProvider P m (.ok [])) isFile := by
  unfold labGet
  dsimp only
  rw [foldlM_ext (processPlugin_override (ujoin s.base_url EXTENSION_PATH) P m h)]

theorem coreCssList_eq (s : Settings) (isFile : String → Bool) :
    coreCssList s isFile =
      (if isFile (pathJoin BUILT_FILES "main.css") then [ujoin (staticPreOf s) "main.css"]
       else []) := by
  by_cases h : isFile (pathJoin BUILT_FILES "main.css") <;> simp [coreCssList, h]

theorem baseBundles_eq (s : Settings) :
    baseBundles s
      = [ujoin (staticPreOf s) "loader.bundle.js", ujoin (staticPreOf s) "main.bundle.js"] := by
  have h1 : ("loader" : String) ++ ".bundle.js" = "loader.bundle.js" := by decide
  have h2 : ("main" : String) ++ ".bundle.js" = "main.bundle.js" := by decide
  simp [baseBundles, h1, h2]

/-- Claim C3: when the core build manifest lacks a `main` key, the handler writes the
fixed error page and returns, for every registry, provider and filesystem: the response
carries no bundle or CSS URLs and no plugin processing or config merging happens. -/
theorem claim_C3 {s : Settings} {core : PluginData} (r : Registry)
    (provider : MValue → Except Unit ConfigDict) (isFile : String → Bool)
    (h : hasKey core "main" = false) :
    labGet s core r provider isFile = .errorPage errMsg := by
  unfold labGet
  dsimp only
  rw [hasKey_false_dictGet core "main" h]

/-- Claim C5, behaviour at the failing input: a registry entry with a truthy `entry`
and an empty `files` list makes the handler raise `IndexError` at `value['files'][0]`
instead of rendering, contradicting the fail-soft policy the claim states. -/
theorem claim_C5 :
    labGet sW coreW rCrash PW fsW = .crash .indexError := by decide

/-- Counterexample to claim C6 as stated: a plugin listing the same `.css` file twice
produces a CSS URL list with duplicates. -/
theorem claim_C6_cex :
    ¬ List.Nodup (cssOf (labGet sW coreW rDup PW fsW)) := by decide

/-- Claim C6 (amended): the CSS URL list is the core CSS list followed by every
plugin's declared `.css` files in sorted plugin order with no deduplication:
multiplicities add up. -/
theorem claim_C6 {s : Settings} {core : PluginData} {r : Registry}
    {provider : MValue → Except Unit ConfigDict} {isFile : String → Bool} {p : AssetPlan}
    (h : labGet s core r provider isFile = .page p) :
    p.jupyterlab_css = coreCssList s isFile ++ cssJoin s r ∧
    ∀ u : String, p.jupyterlab_css.count u
      = (coreCssList s isFile).count u + (cssJoin s r).count u := by
  have hc := (labGet_page h).2.1
  exact ⟨hc, fun u => by rw [hc, List.count_append]⟩

/-- Claim C7: the bundle URL list begins with exactly the loader bundle then the main
bundle, followed by one URL per manifest entry with a truthy `entry` (extension root,
plugin name, first declared file), concatenated with no deduplication. -/
theorem claim_C7 {s : Settings} {core : PluginData} {r : Registry}
    {provider : MValue → Except Unit ConfigDict} {isFile : String → Bool} {p : AssetPlan}
    (h : labGet s core r provider isFile = .page p) :
    p.jupyterlab_bundles =
      [ujoin (staticPreOf s) "loader.bundle.js", ujoin (staticPreOf s) "main.bundle.js"]
        ++ bundlesJoin s r := by
  rw [(labGet_page h).1, baseBundles_eq]

/-- Claim C8: the core CSS URL is added exactly when `main.css` exists on disk, while
the plugin CSS URLs come from the manifests alone: under any two filesystems the
plugin part of the CSS list is the same term `cssJoin s r`. -/
theorem claim_C8 {s : Settings} {core : PluginData} {r : Registry}
    {provider : MValue → Except Unit ConfigDict} {isFile isFile' : String → Bool}
    {p p' : AssetPlan}
    (h1 : labGet s core r provider isFile = .page p)
    (h2 : labGet s core r provider isFile' = .page p') :
    p.jupyterlab_css =
      (if isFile (pathJoin BUILT_FILES "main.css") then [ujoin (staticPreOf s) "main.css"]
       else []) ++ cssJoin s r ∧
    p'.jupyterlab_css =
      (if isFile' (pathJoin BUILT_FILES "main.css") then [ujoin (staticPreOf s) "main.css"]
       else []) ++ cssJoin s r := by
  rw [(labGet_page h1).2.1, (labGet_page h2).2.1, coreCssList_eq, coreCssList_eq]
  exact ⟨rfl, rfl⟩

/-- Claim C9: plan building is deterministic: two registries holding the same items
(in any storage order, with distinct names) yield identical results for the same core
manifest, provider outputs and filesystem. -/
theorem claim_C9 {s : Settings} {core : PluginData}
    {provider : MValue → Except Unit ConfigDict} {isFile : String → Bool}
    {r₁ r₂ : Registry} (hp : r₁.Perm r₂) (hnd : (r₁.map Prod.fst).Nodup) :
    labGet s core r₁ provider isFile = labGet s core r₂ provider isFile := by
  unfold labGet
  rw [sortPlugins_eq_of_perm hp hnd]

theorem registerStep_skip {find : String → Option String}
    {validate : String → String → List String} {readByName : String → Option PluginData}
    {p : String × ExtConfig}
    (hfail : passes find validate readByName p.1 p.2 = false) (out : Registry) :
    registerStep find validate readByName out p = out := by
  unfold passes at hfail
  cases he : p.2.enabled
  · simp [registerStep, he]
  · rw [he] at hfail
    simp only [Bool.true_and] at hfail
    cases hf : find p.1 with
    | none => simp [registerStep, he, hf]
    | some folder =>
      rw [hf] at hfail
      dsimp only at hfail
      cases hv : validate p.1 folder with
      | cons w ws => simp [registerStep, he, hf, hv]
      | nil =>
        rw [hv] at hfail
        simp only [beq_self_eq_true, Bool.true_and] at hfail
        cases hr : readByName p.1 with
        | some d => rw [hr] at hfail; simp at hfail
        | none => simp [registerStep, he, hf, hv, hr]

theorem registerFold_skip {find : String → Option String}
    {validate : String → String → List String} {readByName : String → Option PluginData}
    {n : String} : ∀ {cfg : List (String × ExtConfig)},
    (∀ ec, (n, ec) ∈ cfg → passes find validate readByName n ec = false) →
    ∀ out, cfg.foldl (registerStep find validate readByName) out
      = (cfg.filter (fun q => q.1 != n)).foldl (registerStep find validate readByName) out := by
  intro cfg
  induction cfg with
  | nil => intro _ _; rfl
  | cons q cfg ih =>
    intro hfail out
    by_cases hq : q.1 = n
    · have hp : passes find validate readByName q.1 q.2 = false := by
        rw [hq]
        exact hfail q.2 (by rw [← hq]; exact List.mem_cons_self q cfg)
      rw [List.foldl_cons, registerStep_skip hp, List.filter_cons_of_neg (by simp [hq])]
      exact ih (fun ec hec => hfail ec (List.mem_cons_of_mem _ hec)) out
    · rw [List.foldl_cons, List.filter_cons_of_pos (by simpa using hq), List.foldl_cons]
      exact ih (fun ec hec => hfail ec (List.mem_cons_of_mem _ hec)) _

theorem registerStep_hasKey {find : String → Option String}
    {validate : String → String → List String} {readByName : String → Option PluginData}
    {out : Registry} {q : String × ExtConfig} {n : String}
    (hne : q.1 ≠ n) (h : hasKey out n = false) :
    hasKey (registerStep find validate readByName out q) n = false := by
  unfold registerStep
  split
  · exact h
  · split
    · exact h
    · split
      · exact h
      · split
        · exact h
        · exact hasKey_dictSet_false out q.1 _ n (Ne.symm hne) h

theorem registerFold_hasKey {find : String → Option String}
    {validate : String → String → List String} {readByName : String → Option PluginData}
    {n : String} : ∀ {cfg : List (String × ExtConfig)} {out : Registry},
    (∀ q ∈ cfg, q.1 ≠ n) → hasKey out n = false →
    hasKey (cfg.foldl (registerStep find validate readByName) out) n = false := by
  intro cfg
  induction cfg with
  | nil => intro out _ h; exact h
  | cons q cfg ih =>
    intro out hne h
    rw [List.foldl_cons]
    exact ih (fun q' hq' => hne q' (List.mem_cons_of_mem _ hq'))
      (registerStep_hasKey (hne q (List.mem_cons_self q cfg)) h)

/-- Claim C4: a configured plugin enters the registry only if it is enabled, located,
validated with no warnings, and its manifest is read; a plugin failing any step is
absent from the registry, the built registry equals the one built without that plugin,
and every rendered page is unchanged, so the plugin contributes no URLs and no config. -/
theorem claim_C4 (find : String → Option String) (validate : String → String → List String)
    (readByName : String → Option PluginData) (cfg : List (String × ExtConfig)) (n : String)
    (hfail : ∀ ec, (n, ec) ∈ cfg → passes find validate readByName n ec = false) :
    hasKey (registerExtensions find validate readByName cfg) n = false ∧
    registerExtensions find validate readByName cfg
      = registerExtensions find validate readByName (cfg.filter (fun q => q.1 != n)) ∧
    ∀ (s : Settings) (core : PluginData) (provider : MValue → Except Unit ConfigDict)
      (isFile : String → Bool),
      labGet s core (registerExtensions find validate readByName cfg) provider isFile
        = labGet s core
            (registerExtensions find validate readByName (cfg.filter (fun q => q.1 != n)))
            provider isFile := by
  have h2 : registerExtensions find validate readByName cfg
      = registerExtensions find validate readByName (cfg.filter (fun q => q.1 != n)) :=
    registerFold_skip hfail []
  have h1 : hasKey (registerExtensions find validate readByName cfg) n = false := by
    rw [h2]
    unfold registerExtensions
    refine registerFold_hasKey ?_ rfl
    intro q hq
    exact bne_iff_ne.mp (List.mem_filter.mp hq).2
  exact ⟨h1, h2, fun s core provider isFile => by rw [h2]⟩

theorem values_filter_flatten (F : MValue → List String)
    (hF : ∀ v, v.isDict = false → F v = []) (data : PluginData) :
    (((data.filter (fun kv => kv.2.isDict)).map Prod.snd).map F).flatten
      = ((data.map Prod.snd).map F).flatten := by
  induction data with
  | nil => rfl
  | cons kv data ih =>
    cases hd : kv.2.isDict
    · rw [List.filter_cons_of_neg (by simpa using hd)]
      simpa [List.map_map, hF kv.2 hd] using ih
    · rw [List.filter_cons_of_pos (by simpa using hd)]
      simpa [List.map_map] using ih

theorem orderedInsert_map {α β : Type} (F : α → β) (x : String × α) :
    ∀ l : List (String × α),
      List.orderedInsert keyLe (x.1, F x.2) (l.map (fun q => (q.1, F q.2)))
        = (List.orderedInsert keyLe x l).map (fun q => (q.1, F q.2))
  | [] => rfl
  | y :: l => by
    simp only [List.map_cons, List.orderedInsert, keyLe]
    by_cases hxy : strLe x.1 y.1 = true
    · rw [if_pos hxy, if_pos hxy, List.map_cons, List.map_cons]
    · rw [if_neg hxy, if_neg hxy, List.map_cons, orderedInsert_map F x l]

theorem sortPlugins_map {α β : Type} (F : α → β) (l : List (String × α)) :
    sortPlugins (l.map (fun q => (q.1, F q.2)))
      = (sortPlugins l).map (fun q => (q.1, F q.2)) := by
  induction l with
  | nil => rfl
  | cons x l ih =>
    show List.orderedInsert keyLe (x.1, F x.2) (sortPlugins (l.map (fun q => (q.1, F q.2))))
      = (List.orderedInsert keyLe x (sortPlugins l)).map (fun q => (q.1, F q.2))
    rw [ih, orderedInsert_map F x (sortPlugins l)]

theorem pluginEntriesOf_filter (q : String × PluginData) :
    pluginEntriesOf (q.1, q.2.filter (fun kv => kv.2.isDict)) = pluginEntriesOf q := by
  unfold pluginEntriesOf
  exact values_filter_flatten valueEntries
    (fun v hv => by cases v <;> simp [MValue.isDict, valueEntries] at hv ⊢) q.2

theorem pluginBundlesOf_filter (ePre : String) (q : String × PluginData) :
    pluginBundlesOf ePre (q.1, q.2.filter (fun kv => kv.2.isDict))
      = pluginBundlesOf ePre q := by
  unfold pluginBundlesOf
  exact values_filter_flatten (valueBundles ePre q.1)
    (fun v hv => by cases v <;> simp [MValue.isDict, valueBundles] at hv ⊢) q.2

theorem pluginCssOf_filter (ePre : String) (q : String × PluginData) :
    pluginCssOf ePre (q.1, q.2.filter (fun kv => kv.2.isDict)) = pluginCssOf ePre q := by
  unfold pluginCssOf
  exact values_filter_flatten (valueCss ePre q.1)
    (fun v hv => by cases v <;> simp [MValue.isDict, valueCss] at hv ⊢) q.2

theorem entriesJoin_filterDicts (r : Registry) :
    entriesJoin (filterDicts r) = entriesJoin r := by
  unfold entriesJoin filterDicts
  rw [sortPlugins_map, List.map_map]
  congr 1
  exact List.map_congr_left (fun q _ => pluginEntriesOf_filter q)

theorem bundlesJoin_filterDicts (s : Settings) (r : Registry) :
    bundlesJoin s (filterDicts r) = bundlesJoin s r := by
  unfold bundlesJoin filterDicts
  rw [sortPlugins_map, List.map_map]
  congr 1
  exact List.map_congr_left (fun q _ => pluginBundlesOf_filter (extPreOf s) q)

theorem cssJoin_filterDicts (s : Settings) (r : Registry) :
    cssJoin s (filterDicts r) = cssJoin s r := by
  unfold cssJoin filterDicts
  rw [sortPlugins_map, List.map_map]
  congr 1
  exact List.map_congr_left (fun q _ => pluginCssOf_filter (extPreOf s) q)

/-- Claim C10: values of a manifest dictionary that are not dicts, in particular the
`python_module` string injected at registration, are skipped when building bundle and
CSS URLs and entry points: removing every non-dict value changes none of the three. -/
theorem claim_C10 {s : Settings} {core : PluginData} {r : Registry}
    {provider : MValue → Except Unit ConfigDict} {isFile : String → Bool} {p : AssetPlan}
    (h : labGet s core r provider isFile = .page p) :
    p.plugin_entries = entriesJoin r ∧
    p.jupyterlab_bundles = baseBundles s ++ bundlesJoin s r ∧
    p.jupyterlab_css = coreCssList s isFile ++ cssJoin s r ∧
    entriesJoin (filterDicts r) = entriesJoin r ∧
    bundlesJoin s (filterDicts r) = bundlesJoin s r ∧
    cssJoin s (filterDicts r) = cssJoin s r := by
  obtain ⟨hb, hc, he, _⟩ := labGet_page h
  exact ⟨he, hb, hc, entriesJoin_filterDicts r, bundlesJoin_filterDicts s r,
    cssJoin_filterDicts s r⟩


theorem labGet_W : labGet sW coreW rW PW fsW = .page pW := by decide

theorem labGet_WN : labGet sW coreW rW PW fsN = .page pW2 := by decide

/-- Witness for C1 at a concrete two-plugin registry: plugin `b` wins the collision on `x`. -/
theorem claim_C1_witness : dictGet pW.jupyterlab_config "x" = some (CVal.num 2) :=
  claim_C1 "a" "b" dataA dataB "x" (CVal.num 2) labGet_W (by decide) (by decide) (by decide)
    (by decide) (by decide) (by decide) (by decide)

/-- Witness for C2: the run whose provider raises for module `mb` equals the run where
`mb` contributes nothing. -/
theorem claim_C2_witness :
    labGet sW coreW rW PFail fsW
      = labGet sW coreW rW (overrideProvider PFail (.str "mb") (.ok [])) fsW :=
  claim_C2 rfl

/-- Witness for C3 at the empty core manifest. -/
theorem claim_C3_witness : labGet sW [] rW PW fsW = .errorPage errMsg :=
  claim_C3 rW PW fsW (by decide)

/-- Witness for C4: an enabled plugin whose folder is not found never registers. -/
theorem claim_C4_witness : hasKey (registerExtensions findW validW readW cfgW) "p" = false :=
  (claim_C4 findW validW readW cfgW "p" (by
    intro ec hec
    simp only [cfgW, List.mem_singleton, Prod.mk.injEq, true_and] at hec
    subst hec
    decide)).1

/-- Witness for the amended C6 at the concrete registry. -/
theorem claim_C6_witness : pW.jupyterlab_css = coreCssList sW fsW ++ cssJoin sW rW :=
  (claim_C6 labGet_W).1

/-- Witness for C7 at the concrete registry. -/
theorem claim_C7_witness :
    pW.jupyterlab_bundles =
      [ujoin (staticPreOf sW) "loader.bundle.js", ujoin (staticPreOf sW) "main.bundle.js"]
        ++ bundlesJoin sW rW :=
  claim_C7 labGet_W

/-- Witness for C8: the same registry under two filesystems. -/
theorem claim_C8_witness :
    pW.jupyterlab_css =
      (if fsW (pathJoin BUILT_FILES "main.css") then [ujoin (staticPreOf sW) "main.css"]
       else []) ++ cssJoin sW rW ∧
    pW2.jupyterlab_css =
      (if fsN (pathJoin BUILT_FILES "main.css") then [ujoin (staticPreOf sW) "main.css"]
       else []) ++ cssJoin sW rW :=
  claim_C8 labGet_W labGet_WN

/-- Witness for C9: the two orderings of the concrete registry render identically. -/
theorem claim_C9_witness : labGet sW coreW rW PW fsW = labGet sW coreW rW2 PW fsW :=
  claim_C9 (List.Perm.swap ("a", dataA) ("b", dataB) []) (by decide)

/-- Witness for C10 at the concrete registry. -/
theorem claim_C10_witness :
    pW.plugin_entries = entriesJoin rW ∧
    pW.jupyterlab_bundles = baseBundles sW ++ bundlesJoin sW rW ∧
    pW.jupyterlab_css = coreCssList sW fsW ++ cssJoin sW rW ∧
    entriesJoin (filterDicts rW) = entriesJoin rW ∧
    bundlesJoin sW (filterDicts rW) = bundlesJoin sW rW ∧
    cssJoin sW (filterDicts rW) = cssJoin sW rW :=
  claim_C10 labGet_W
